import Mathlib

/-!
# Verification of the vouch/rank core of the Telegram vouch portal

Shallow embedding of the vouch/rank state machine implemented in
`src/database.py` (class `Database`), the message sanitizer in `src/bot.py`,
and the vouch-edit endpoint in `src/main.py`.

Modelling conventions:
* Python/SQL text is modelled as `List Char`; `str.lower()` / SQL `LOWER`
  as an ASCII character-wise lowering.
* Timestamps (`created_at`, `last_active_at`, `first_seen_at`, `NOW()`) are
  omitted: no verified claim depends on wall-clock values.
* The database tables (`users`, `vouches`, `events`, `rank_events`) are
  lists of records; `SERIAL` vouch ids come from an explicit counter.
* `asyncpg` calls that would raise (foreign-key violations, or
  `calculate_rank(None)` on a missing row) leave the state as it was at the
  moment of the raise; the comments on each operation say where.
-/

abbrev Str := List Char

/-- Python `str.lower()` / SQL `LOWER`, character-wise (ASCII). -/
def lowerStr (s : Str) : Str := s.map Char.toLower

/-- `LOWER` applied to a nullable text column (SQL `LOWER(NULL)` is `NULL`). -/
def optLower (s : Option Str) : Option Str := s.map lowerStr

/-- `database.py` `calculate_rank` (staticmethod, lines 505-517). -/
def calculate_rank (vouch_count : Int) : String :=
  if vouch_count ≥ 16 then "top_tier"
  else if vouch_count ≥ 11 then "endorsed"
  else if vouch_count ≥ 6 then "trusted"
  else if vouch_count ≥ 3 then "verified"
  else "unverified"

/-- Numeric level of each rank key, following the §4.1 ordering
    unverified < verified < trusted < endorsed < top_tier. -/
def rankValue (r : String) : Nat :=
  if r = "top_tier" then 4
  else if r = "endorsed" then 3
  else if r = "trusted" then 2
  else if r = "verified" then 1
  else 0

/-- A row of the `users` table (claim-relevant columns). -/
structure User where
  id : Int
  username : Option Str
  firstName : Option Str
  lastName : Option Str
  totalVouches : Int
  rank : String
  referrerId : Option Int
deriving DecidableEq

/-- A row of the `vouches` table (claim-relevant columns). -/
structure Vouch where
  id : Nat
  fromUser : Int
  toUser : Option Int
  toUsername : Option Str
  message : Option Str
  isPending : Bool
deriving DecidableEq

/-- A JSONB metadata value in an `events` row. -/
inductive MVal where
  | int (n : Int)
  | str (s : String)
  | null
deriving DecidableEq

/-- A row of the `events` table. -/
structure Event where
  eventType : String
  userId : Option Int
  metadata : List (String × MVal)
deriving DecidableEq

/-- A row of the `rank_events` table. -/
structure RankEvent where
  userId : Int
  oldRank : Option String
  newRank : String
deriving DecidableEq

/-- The database state owned by the vouch/rank core. -/
structure DBState where
  users : List User
  vouches : List Vouch
  nextVouchId : Nat
  events : List Event
  rankEvents : List RankEvent
deriving DecidableEq

/-- `SELECT * FROM users WHERE telegram_user_id = uid` (first matching row). -/
def findUser (users : List User) (uid : Int) : Option User :=
  users.find? (fun u => u.id == uid)

/-- `UPDATE users SET ... WHERE telegram_user_id = uid` (updates every
    matching row, as SQL does). -/
def updUsers (users : List User) (uid : Int) (f : User → User) : List User :=
  users.map (fun u => if u.id == uid then f u else u)

/-- `database.py` `log_event` (lines 409-415). -/
def logEvent (s : DBState) (t : String) (uid : Option Int)
    (md : List (String × MVal)) : DBState :=
  { s with events := s.events ++ [⟨t, uid, md⟩] }

/-- `database.py` `update_user_rank` (lines 262-284).  When the user row is
    absent the `SELECT rank` returns `NULL`, the `UPDATE` matches nothing and
    the `rank_events` insert violates its foreign key, raising before any
    change is made: modelled by returning the state unchanged. -/
def update_user_rank (s : DBState) (uid : Int) (newRank : String) : DBState :=
  match findUser s.users uid with
  | none => s
  | some u =>
    let s1 := { s with users := updUsers s.users uid (fun v => { v with rank := newRank }) }
    let s2 := { s1 with rankEvents := s1.rankEvents ++ [⟨uid, some u.rank, newRank⟩] }
    logEvent s2 "rank_up" (some uid)
      [("old_rank", .str u.rank), ("new_rank", .str newRank)]

/-- The pending-vouch match used by `_process_pending_vouches`:
    `LOWER(to_username) = un AND is_pending = TRUE` (a `NULL` username never
    matches). -/
def pendingMatch (un : Str) (v : Vouch) : Bool :=
  optLower v.toUsername == some un && v.isPending

/-- `database.py` `_process_pending_vouches` (lines 199-251).  If the user
    row is absent, the count `UPDATE` matches nothing and the re-fetch of
    `total_vouches` yields `NULL`, on which Python raises (`None >= 16`)
    after the vouch rows were already updated: modelled by returning the
    partially mutated state. -/
def process_pending_vouches (s : DBState) (uid : Int) (username : Str) : DBState :=
  let un := lowerStr username
  if un = [] then s
  else
    let pending := s.vouches.filter (pendingMatch un)
    if pending = [] then s
    else
      let ids := pending.map (·.id)
      let s1 := { s with vouches := s.vouches.map (fun (v : Vouch) =>
        if v.id ∈ ids then { v with toUser := some uid, isPending := false } else v) }
      let k : Int := pending.length
      let s2 := { s1 with users := updUsers s1.users uid (fun u =>
        { u with totalVouches := u.totalVouches + k }) }
      match findUser s2.users uid with
      | none => s2
      | some u2 =>
        let newRank := calculate_rank u2.totalVouches
        let s3 := { s2 with users := updUsers s2.users uid (fun u => { u with rank := newRank }) }
        logEvent s3 "pending_vouches_processed" (some uid)
          [("username", .str (String.mk username)),
           ("vouches_processed", .int k),
           ("new_rank", .str newRank)]

/-- Result of `create_vouch` / `update_vouch`: the Python dict is either
    `{"error": msg}` or the persisted vouch row. -/
inductive VRes where
  | err (msg : String)
  | ok (v : Vouch)
deriving DecidableEq

/-- Username normalization in `database.py` `create_vouch` (line 292):
    `to_username.replace("@", "").lower()` — every `@` is removed, then the
    result is lowercased. -/
def normalizeUname (u : Str) : Str := lowerStr (u.filter (· != '@'))

/-- Target resolution in `create_vouch` (database.py lines 294-301): with no
    explicit target id and a truthy normalized username, look the username up
    case-insensitively in the directory (`LOWER(username) = $1`). -/
def resolveTarget (s : DBState) (toUserId0 : Option Int) (tu : Option Str) : Option Int :=
  match toUserId0 with
  | some b => some b
  | none =>
    match tu with
    | some w =>
      if w ≠ [] then
        match s.users.find? (fun u => optLower u.username == some w) with
        | some u => some u.id
        | none => none
      else none
    | none => none

/-- `database.py` `create_vouch` (lines 287-382), after the username
    normalization step; `tu` is the normalized `to_username`.  Mirrors the
    source order: directory lookup (`resolveTarget`), duplicate check,
    self-vouch check, then the confirmed or pending insert with its
    count/rank/event updates.  The `vouches` inserts reference `users` by
    foreign key: a missing referenced row makes the insert raise before
    mutating anything, modelled by an error result with the state
    unchanged. -/
def create_vouch_core (s : DBState) (fromId : Int) (toUserId0 : Option Int)
    (tu : Option Str) (message : Option Str) : DBState × VRes :=
  match resolveTarget s toUserId0 tu with
  | some b =>
    let existing := s.vouches.find? (fun v => v.fromUser == fromId && v.toUser == some b)
    if existing.isSome then (s, .err "You already vouched for this user")
    else if b == fromId then (s, .err "You cannot vouch for yourself")
    else
      match findUser s.users fromId, findUser s.users b with
      | some _, some ub =>
        let v : Vouch := { id := s.nextVouchId, fromUser := fromId, toUser := some b,
                           toUsername := match tu with
                             | some w => if w ≠ [] then some w else none
                             | none => none,
                           message := message, isPending := false }
        let s1 := { s with vouches := s.vouches ++ [v], nextVouchId := s.nextVouchId + 1 }
        let s2 := { s1 with users := updUsers s1.users b (fun u =>
          { u with totalVouches := u.totalVouches + 1 }) }
        -- `SELECT total_vouches` re-fetched after the increment: the first
        -- row with id b is ub with its counter incremented.
        let vouchCount := ub.totalVouches + 1
        let newRank := calculate_rank vouchCount
        -- `SELECT rank` re-fetched after the increment (unchanged by it).
        let currentRank := ub.rank
        let s3 := if newRank ≠ currentRank then update_user_rank s2 b newRank else s2
        let mutualRow := s3.vouches.find? (fun v2 => v2.fromUser == b && v2.toUser == some fromId)
        let s4 := if mutualRow.isSome then
            logEvent s3 "mutual_vouch" (some fromId) [("other_user", .int b)]
          else s3
        let s5 := logEvent s4 "vouch_created" (some fromId)
          [("to_user", .int b), ("vouch_count", .int vouchCount)]
        (s5, .ok v)
      | _, _ => (s, .err "foreign key violation")
  | none =>
    match tu with
    | some w =>
      if w ≠ [] then
        let existing := s.vouches.find? (fun v =>
          v.fromUser == fromId && optLower v.toUsername == some w && v.isPending)
        if existing.isSome then (s, .err "You already vouched for this user")
        else
          match findUser s.users fromId with
          | some _ =>
            let v : Vouch := { id := s.nextVouchId, fromUser := fromId, toUser := none,
                               toUsername := some w, message := message, isPending := true }
            let s1 := { s with vouches := s.vouches ++ [v], nextVouchId := s.nextVouchId + 1 }
            (logEvent s1 "pending_vouch_created" (some fromId)
              [("to_username", .str (String.mk w))], .ok v)
          | none => (s, .err "foreign key violation")
      else (s, .err "Must provide either to_user_id or to_username")
    | none => (s, .err "Must provide either to_user_id or to_username")

/-- `database.py` `create_vouch` (lines 287-382). -/
def create_vouch (s : DBState) (fromId : Int) (toUserId : Option Int)
    (toUsername : Option Str) (message : Option Str) : DBState × VRes :=
  create_vouch_core s fromId toUserId (toUsername.map normalizeUname) message

/-- `database.py` `get_or_create_user` (lines 143-188).  The Python
    truthiness test `if username:` treats both `None` and `""` as absent.
    Returns the row fetched before any update, as the source does. -/
def get_or_create_user (s : DBState) (uid : Int) (username : Option Str)
    (firstName lastName : Option Str) (referrerId : Option Int) : DBState × User :=
  match findUser s.users uid with
  | some u =>
    match username with
    | some w =>
      if w ≠ [] then
        let s1 := { s with users := updUsers s.users uid (fun v => { v with username := some w }) }
        let s2 := if u.username ≠ some w then process_pending_vouches s1 uid w else s1
        (s2, u)
      else (s, u)
    | none => (s, u)
  | none =>
    let nu : User := { id := uid, username := username, firstName := firstName,
                       lastName := lastName, totalVouches := 0, rank := "unverified",
                       referrerId := referrerId }
    let s1 := { s with users := s.users ++ [nu] }
    let s2 := logEvent s1 "user_signup" (some uid)
      [("referrer_id", match referrerId with | some r => .int r | none => .null),
       ("username", match username with | some w => .str (String.mk w) | none => .null)]
    let s3 := match username with
      | some w => if w ≠ [] then process_pending_vouches s2 uid w else s2
      | none => s2
    (s3, nu)

/-- `bot.py` `BANNED_WORDS` (lines 30-33). -/
def BANNED_WORDS : List Str :=
  ["scam", "fraud", "fake", "cheat", "steal", "hack",
   "phishing", "ponzi", "pyramid"].map String.toList

/-- The redaction marker substituted for banned words in `bot.py`. -/
def REDACTED : Str := "[redacted]".toList

/-- One pass of `re.sub(re.compile(re.escape(word), re.IGNORECASE),
    "[redacted]", text)`: left-to-right, non-overlapping, case-insensitive
    literal replacement.  The fuel argument (instantiated with the input
    length by `replace_ci`) makes the recursion structural. -/
def replace_ci_fuel (w r : Str) : Nat → Str → Str
  | _, [] => []
  | 0, s => s
  | fuel + 1, c :: cs =>
    if (lowerStr w).isPrefixOf (lowerStr (c :: cs)) then
      r ++ replace_ci_fuel w r fuel (cs.drop (w.length - 1))
    else
      c :: replace_ci_fuel w r fuel cs

/-- Case-insensitive replacement of every occurrence of `w` by `r` in `s`. -/
def replace_ci (w r s : Str) : Str := replace_ci_fuel w r s.length s

/-- The banned-word substitution loop of `bot.py` `sanitize_message`
    (lines 40-43), before truncation. -/
def redact (t : Str) : Str := BANNED_WORDS.foldl (fun acc w => replace_ci w REDACTED acc) t

/-- `bot.py` `sanitize_message` (lines 35-45): redact every banned word,
    then truncate to 120 characters (`sanitized[:120]`).  The `if not text`
    guard returns `""`, which coincides with the general path on `[]`. -/
def sanitize_message (t : Str) : Str := (redact t).take 120

/-- `w` occurs case-insensitively as a contiguous substring of `s`. -/
def occurs_ci (w : Str) : Str → Bool
  | [] => w.isEmpty
  | c :: cs => (lowerStr w).isPrefixOf (lowerStr (c :: cs)) || occurs_ci w cs

/-- Propositional form of case-insensitive occurrence: the lowering of `w`
    is a contiguous substring of the lowering of `s`. -/
def OccursCI (w s : Str) : Prop := ∃ a b, lowerStr s = a ++ lowerStr w ++ b

/-- Modelled from the spec: `db.update_vouch` is invoked from `src/main.py`
    (`PUT /api/vouches/{vouch_id}`, lines 377-411) but no `update_vouch`
    method is defined in `src/database.py`.  Spec §4.3: fails with
    `NotFound` if no such vouch exists; fails with `PermissionDenied` if
    `requesting_user_id` is not the vouch's source; otherwise sanitizes and
    replaces the message in place and does not affect totals/ranks.  (The
    caller in `main.py` line 391 already sanitizes the message before the
    call; the sanitization is modelled here, at the single place the spec
    puts it.) -/
def update_vouch (s : DBState) (vouchId : Nat) (requestingUserId : Int)
    (newMessage : Str) : DBState × VRes :=
  match s.vouches.find? (fun v => v.id == vouchId) with
  | none => (s, .err "Vouch not found")
  | some v =>
    if v.fromUser ≠ requestingUserId then (s, .err "You can only edit your own vouches")
    else
      let v2 := { v with message := some (sanitize_message newMessage) }
      ({ s with vouches := s.vouches.map (fun x => if x.id == vouchId then v2 else x) },
       .ok v2)

/-- The §3 invariant behind C2: every persisted rank agrees with
    `calculate_rank` of the persisted total vouch count. -/
def RankConsistent (s : DBState) : Prop :=
  ∀ u ∈ s.users, u.rank = calculate_rank u.totalVouches

/-- `telegram_user_id` is the primary key of `users`: ids are unique. -/
def UniqueIds (s : DBState) : Prop := (s.users.map (·.id)).Nodup

/-- The freshly initialized store: empty tables, vouch ids starting at 1. -/
def emptyDB : DBState := ⟨[], [], 1, [], []⟩

/-! Concrete traces used by the counterexamples. -/

/-- C1 trace: Alice (id 1) signs up; she vouches for the not-yet-seen
    username "bob" (pending); user 2 signs up without a username; Alice
    vouches for user 2 directly by id (confirmed). -/
def c1s4 : DBState :=
  (create_vouch
    ((get_or_create_user
      ((create_vouch
        ((get_or_create_user emptyDB 1 (some "alice".toList) none none none).1)
        1 none (some "bob".toList) none).1)
      2 none none none none).1)
    1 (some 2) none none).1

/-- C1 trace, final state: user 2 now acquires the username "bob" and the
    pending vouch is resolved onto the pair that already has a vouch. -/
def c1s5 : DBState := process_pending_vouches c1s4 2 "bob".toList

/-- C2 trace: a fresh user (0 vouches, rank unverified), then an
    `update_user_rank` call with an arbitrary rank. -/
def c2s2 : DBState :=
  update_user_rank ((get_or_create_user emptyDB 1 none none none none).1) 1 "top_tier"

/-- C4 trace: user 1 signs up without a username, pending-vouches the
    username "alice", then acquires the username "alice" themself — the
    pending vouch resolves into a persisted self-vouch 1 → 1. -/
def c4s3 : DBState :=
  (get_or_create_user
    ((create_vouch
      ((get_or_create_user emptyDB 1 none none none none).1)
      1 none (some "alice".toList) none).1)
    1 (some "alice".toList) none none none).1

/-- C5 trace: Alice (id 1) signs up and pending-vouches the unseen
    username "bob" once. -/
def c5s2 : DBState :=
  (create_vouch ((get_or_create_user emptyDB 1 (some "alice".toList) none none none).1)
    1 none (some "bob".toList) none).1

/-- C7 trace: Alice (id 1) signs up; user 2 signs up without a username and
    vouches for Alice (confirmed 2 → 1); Alice pending-vouches "bob"; user 2
    then acquires the username "bob", resolving the vouch 1 → 2.  Both
    directions now exist. -/
def c7s5 : DBState :=
  (get_or_create_user
    ((create_vouch
      ((create_vouch
        ((get_or_create_user
          ((get_or_create_user emptyDB 1 (some "alice".toList) none none none).1)
          2 none none none none).1)
        2 none (some "alice".toList) none).1)
      1 none (some "bob".toList) none).1)
    2 (some "bob".toList) none none none).1

/-- C3 helper: the numeric level of the computed rank as a plain
    integer if-chain. -/
theorem rankValue_calculate_rank (n : Int) :
    rankValue (calculate_rank n) =
      if n ≥ 16 then 4 else if n ≥ 11 then 3 else if n ≥ 6 then 2
        else if n ≥ 3 then 1 else 0 := by
  unfold calculate_rank
  split_ifs <;> rfl

/-- C3: for all integer vouch counts, `calculate_rank` is non-decreasing and
    matches the §4.1 threshold table exactly at every boundary
    (2 → unverified, 3/5 → verified, 6/10 → trusted, 11/15 → endorsed,
    16 → top_tier). -/
theorem c3_rank_monotone_and_boundaries :
    (∀ m n : Int, m ≤ n → rankValue (calculate_rank m) ≤ rankValue (calculate_rank n)) ∧
    calculate_rank 2 = "unverified" ∧ calculate_rank 3 = "verified" ∧
    calculate_rank 5 = "verified" ∧ calculate_rank 6 = "trusted" ∧
    calculate_rank 10 = "trusted" ∧ calculate_rank 11 = "endorsed" ∧
    calculate_rank 15 = "endorsed" ∧ calculate_rank 16 = "top_tier" := by
  refine ⟨?_, rfl, rfl, rfl, rfl, rfl, rfl, rfl, rfl⟩
  intro m n hmn
  rw [rankValue_calculate_rank, rankValue_calculate_rank]
  split_ifs <;> omega

/-- C3 witness: the monotonicity part applied at the concrete pair 4 ≤ 12. -/
theorem c3_witness :
    rankValue (calculate_rank 4) ≤ rankValue (calculate_rank 12) :=
  c3_rank_monotone_and_boundaries.1 4 12 (by decide)

/-- C1 counterexample: after a sequence of `create_vouch` and
    `resolve_pending_vouches` operations, user 1 holds two vouches for the
    same resolved target 2 — the pending-vouch resolution created a second
    vouch for a pair that already had one. -/
theorem c1_counterexample :
    c1s4.vouches.countP (fun v => v.fromUser == 1 && v.toUser == some 2) = 1 ∧
    c1s5.vouches.countP (fun v => v.fromUser == 1 && v.toUser == some 2) = 2 := by
  decide

/-- C2 counterexample: `update_user_rank` persists whatever rank it is
    given; called with "top_tier" on a user with 0 vouches it leaves the
    stored rank different from `calculate_rank` of the stored total. -/
theorem c2_counterexample :
    ∃ u ∈ c2s2.users, u.rank ≠ calculate_rank u.totalVouches := by
  decide

/-- C4 counterexample: a self-vouch 1 → 1 is reachable (a pending vouch on
    one's own future username resolves without a self check), and in that
    state `create_vouch(1 → 1)` fails with the duplicate error, not with
    the self-vouch error. -/
theorem c4_counterexample :
    (∃ v ∈ c4s3.vouches, v.fromUser = 1 ∧ v.toUser = some 1) ∧
    (create_vouch c4s3 1 (some 1) none none).2 = .err "You already vouched for this user" ∧
    (create_vouch c4s3 1 (some 1) none none).2 ≠ .err "You cannot vouch for yourself" := by
  decide

/-- C5 counterexample: with no user named "bob" in the directory but a
    pending vouch 1 → "bob" already present, a second
    `create_vouch(1, "bob")` persists nothing at all (it fails with the
    duplicate error), not "exactly one pending vouch". -/
theorem c5_counterexample :
    (∀ u ∈ c5s2.users, optLower u.username ≠ some "bob".toList) ∧
    (create_vouch c5s2 1 none (some "bob".toList) none).2 =
      .err "You already vouched for this user" ∧
    (create_vouch c5s2 1 none (some "bob".toList) none).1 = c5s2 := by
  decide

/-- C7 counterexample: vouches exist in both directions between users 1 and
    2 (the second direction arose through pending-vouch resolution), yet no
    `mutual_vouch` event was ever emitted. -/
theorem c7_counterexample :
    (∃ v ∈ c7s5.vouches, v.fromUser = 1 ∧ v.toUser = some 2 ∧ v.isPending = false) ∧
    (∃ v ∈ c7s5.vouches, v.fromUser = 2 ∧ v.toUser = some 1 ∧ v.isPending = false) ∧
    c7s5.events.countP (fun e => e.eventType == "mutual_vouch") = 0 := by
  decide

/-! Shared helper lemmas about the embedded store operations. -/

theorem findUser_mem {users : List User} {uid : Int} {u : User}
    (h : findUser users uid = some u) : u ∈ users :=
  List.mem_of_find?_eq_some h

theorem findUser_id {users : List User} {uid : Int} {u : User}
    (h : findUser users uid = some u) : u.id = uid := by
  have := List.find?_some h
  simpa using this

theorem findUser_updUsers (users : List User) (uid uid' : Int) (f : User → User)
    (hf : ∀ u, (f u).id = u.id) :
    findUser (updUsers users uid f) uid' =
      (findUser users uid').map (fun u => if u.id == uid then f u else u) := by
  unfold findUser updUsers
  rw [List.find?_map]
  have hp : ((fun u => u.id == uid') ∘ fun u => if u.id == uid then f u else u) =
      (fun u : User => u.id == uid') := by
    funext u
    by_cases h : u.id == uid <;> simp [Function.comp, h, hf]
  rw [hp]

theorem updUsers_absent (users : List User) (uid : Int) (f : User → User)
    (h : findUser users uid = none) : updUsers users uid f = users := by
  unfold findUser at h
  rw [List.find?_eq_none] at h
  unfold updUsers
  have : ∀ u ∈ users, (if u.id == uid then f u else u) = u := by
    intro u hu
    simp [h u hu]
  calc users.map (fun u => if u.id == uid then f u else u) = users.map id := by
        exact List.map_congr_left this
    _ = users := List.map_id users

theorem updUsers_map_id (users : List User) (uid : Int) (f : User → User)
    (hf : ∀ u, (f u).id = u.id) :
    (updUsers users uid f).map (·.id) = users.map (·.id) := by
  unfold updUsers
  rw [List.map_map]
  apply List.map_congr_left
  intro u _
  by_cases h : u.id == uid <;> simp [Function.comp, h, hf]

theorem uniqueIds_eq {users : List User} (h : (users.map (·.id)).Nodup)
    {u v : User} (hu : u ∈ users) (hv : v ∈ users) (hid : u.id = v.id) : u = v :=
  List.inj_on_of_nodup_map h hu hv hid

theorem find?_append_right_false {α : Type} (l : List α) (x : α) (p : α → Bool)
    (hx : p x = false) : (l ++ [x]).find? p = l.find? p := by
  rw [List.find?_append]
  cases h : l.find? p <;> simp [List.find?, hx]

/-! Behavior lemmas for `process_pending_vouches`. -/

theorem ppv_empty_uname (s : DBState) (uid : Int) (w : Str)
    (h : lowerStr w = []) : process_pending_vouches s uid w = s := by
  unfold process_pending_vouches
  simp [h]

theorem ppv_no_match (s : DBState) (uid : Int) (w : Str)
    (h : s.vouches.filter (pendingMatch (lowerStr w)) = []) :
    process_pending_vouches s uid w = s := by
  unfold process_pending_vouches
  by_cases hw : lowerStr w = [] <;> simp [hw, h]

theorem ppv_vouches_shape (s : DBState) (uid : Int) (w : Str)
    (hw : lowerStr w ≠ []) (hp : s.vouches.filter (pendingMatch (lowerStr w)) ≠ []) :
    (process_pending_vouches s uid w).vouches =
      s.vouches.map (fun v =>
        if v.id ∈ (s.vouches.filter (pendingMatch (lowerStr w))).map (·.id)
        then { v with toUser := some uid, isPending := false } else v) := by
  unfold process_pending_vouches
  simp only [if_neg hw, if_neg hp]
  cases hfind : findUser (updUsers s.users uid fun u =>
      { u with totalVouches := u.totalVouches +
          ((s.vouches.filter (pendingMatch (lowerStr w))).length : Int) }) uid <;>
    simp [logEvent]

theorem ppv_clears (s : DBState) (uid : Int) (w : Str) (hw : lowerStr w ≠ []) :
    (process_pending_vouches s uid w).vouches.filter (pendingMatch (lowerStr w)) = [] := by
  by_cases hp : s.vouches.filter (pendingMatch (lowerStr w)) = []
  · rw [ppv_no_match s uid w hp]
    exact hp
  · rw [ppv_vouches_shape s uid w hw hp]
    rw [List.filter_eq_nil_iff]
    intro v' hv'
    rw [List.mem_map] at hv'
    obtain ⟨v, hv, rfl⟩ := hv'
    by_cases hid : v.id ∈ (s.vouches.filter (pendingMatch (lowerStr w))).map (·.id)
    · simp [hid, pendingMatch]
    · simp only [if_neg hid]
      intro hpm
      apply hid
      rw [List.mem_map]
      exact ⟨v, List.mem_filter.2 ⟨hv, hpm⟩, rfl⟩

/-- C6: `resolve_pending_vouches` is a no-op on an empty/null username and
    when no pending vouch matches, and re-invoking it after a first call
    (with the same normalized username) changes nothing: all matching
    vouches were already confirmed, so the second call takes the no-op
    branch. -/
theorem c6_resolution_idempotent :
    (∀ (s : DBState) (uid : Int) (w : Str), lowerStr w = [] →
      process_pending_vouches s uid w = s) ∧
    (∀ (s : DBState) (uid : Int) (w : Str),
      s.vouches.filter (pendingMatch (lowerStr w)) = [] →
      process_pending_vouches s uid w = s) ∧
    (∀ (s : DBState) (uid : Int) (w : Str) (uid2 : Int) (w2 : Str),
      lowerStr w2 = lowerStr w →
      process_pending_vouches (process_pending_vouches s uid w) uid2 w2 =
        process_pending_vouches s uid w) := by
  refine ⟨fun s uid w h => ppv_empty_uname s uid w h,
          fun s uid w h => ppv_no_match s uid w h, ?_⟩
  intro s uid w uid2 w2 h2
  by_cases hw : lowerStr w = []
  · rw [ppv_empty_uname s uid w hw]
    exact ppv_empty_uname s uid2 w2 (h2.trans hw)
  · apply ppv_no_match
    rw [h2]
    exact ppv_clears s uid w hw

/-- C6 witness: the idempotence applied to the concrete C1 trace (first
    call resolves the pending vouch on "bob", the second is a no-op). -/
theorem c6_witness :
    process_pending_vouches (process_pending_vouches c1s4 2 "bob".toList) 2 "bob".toList =
      process_pending_vouches c1s4 2 "bob".toList :=
  c6_resolution_idempotent.2.2 c1s4 2 "bob".toList 2 "bob".toList rfl

/-- C10: `create_vouch` deletes every `@` in the target username (not only
    a leading one) before lowercasing, so any two target usernames whose
    `@`-free projections coincide are treated identically — same
    normalization, hence same directory lookup, duplicate check, and
    pending-vouch storage (the entire call result is equal). -/
theorem c10_at_sign_normalization :
    ∀ u1 u2 : Str, u1.filter (· != '@') = u2.filter (· != '@') →
      normalizeUname u1 = normalizeUname u2 ∧
      ∀ (s : DBState) (fromId : Int) (m : Option Str),
        create_vouch s fromId none (some u1) m = create_vouch s fromId none (some u2) m := by
  intro u1 u2 h
  have hn : normalizeUname u1 = normalizeUname u2 := by
    unfold normalizeUname
    rw [h]
  exact ⟨hn, fun s fromId m => by unfold create_vouch; simp [hn]⟩

/-- C10 witness: "B@ob" and "@Bob" differ only in `@` placement and are
    treated as the same target. -/
theorem c10_witness :
    normalizeUname "B@ob".toList = normalizeUname "@Bob".toList ∧
    create_vouch emptyDB 1 none (some "B@ob".toList) none =
      create_vouch emptyDB 1 none (some "@Bob".toList) none :=
  ⟨(c10_at_sign_normalization "B@ob".toList "@Bob".toList (by decide)).1,
   (c10_at_sign_normalization "B@ob".toList "@Bob".toList (by decide)).2 emptyDB 1 none⟩

/-- C8: `update_vouch` fails with NotFound when no vouch has the id, fails
    with PermissionDenied when the requester is not the vouch's source, and
    otherwise replaces only that vouch's message (with the sanitized new
    message), leaving users — hence every total vouch count and rank — and
    the event/rank-event logs unchanged. -/
theorem c8_update_vouch_contract :
    ∀ (s : DBState) (vid : Nat) (rid : Int) (msg : Str),
      (s.vouches.find? (fun v => v.id == vid) = none →
        update_vouch s vid rid msg = (s, .err "Vouch not found")) ∧
      (∀ v : Vouch, s.vouches.find? (fun v => v.id == vid) = some v →
        v.fromUser ≠ rid →
        update_vouch s vid rid msg = (s, .err "You can only edit your own vouches")) ∧
      (∀ v : Vouch, s.vouches.find? (fun v => v.id == vid) = some v →
        v.fromUser = rid →
        (update_vouch s vid rid msg).2 = .ok { v with message := some (sanitize_message msg) } ∧
        (update_vouch s vid rid msg).1.users = s.users ∧
        (update_vouch s vid rid msg).1.vouches = s.vouches.map (fun x =>
          if x.id == vid then { v with message := some (sanitize_message msg) } else x) ∧
        (update_vouch s vid rid msg).1.events = s.events ∧
        (update_vouch s vid rid msg).1.rankEvents = s.rankEvents) := by
  intro s vid rid msg
  refine ⟨fun h => ?_, fun v hv hne => ?_, fun v hv he => ?_⟩
  · unfold update_vouch
    rw [h]
  · unfold update_vouch
    rw [hv]
    simp [hne]
  · unfold update_vouch
    rw [hv]
    simp [he]

/-- C8 witness: the NotFound branch on the empty store, and the
    PermissionDenied and success branches on the C5 trace (whose single
    vouch has id 1 and source 1). -/
theorem c8_witness :
    update_vouch emptyDB 1 1 [] = (emptyDB, .err "Vouch not found") ∧
    update_vouch c5s2 1 2 [] = (c5s2, .err "You can only edit your own vouches") ∧
    (update_vouch c5s2 1 1 [] ).1.users = c5s2.users :=
  ⟨(c8_update_vouch_contract emptyDB 1 1 []).1 (by decide),
   (c8_update_vouch_contract c5s2 1 2 []).2.1 ⟨1, 1, none, some "bob".toList, none, true⟩
     (by decide) (by decide),
   ((c8_update_vouch_contract c5s2 1 1 []).2.2 ⟨1, 1, none, some "bob".toList, none, true⟩
     (by decide) (by decide)).2.1⟩

/-- C1 (amended): a `create_vouch` call that would create a second vouch
    for an already-voucher-target pair fails with the duplicate error and
    persists nothing — whether the target is given by id, given by a
    username that resolves in the directory, or unresolved with a pending
    vouch already present for the same (source, normalized username). -/
theorem c1_duplicate_rejected :
    (∀ (s : DBState) (A b : Int) (tu : Option Str) (m : Option Str),
      (s.vouches.find? (fun v => v.fromUser == A && v.toUser == some b)).isSome →
      create_vouch s A (some b) tu m = (s, .err "You already vouched for this user")) ∧
    (∀ (s : DBState) (A : Int) (w : Str) (m : Option Str) (uB : User),
      normalizeUname w ≠ [] →
      s.users.find? (fun u => optLower u.username == some (normalizeUname w)) = some uB →
      (s.vouches.find? (fun v => v.fromUser == A && v.toUser == some uB.id)).isSome →
      create_vouch s A none (some w) m = (s, .err "You already vouched for this user")) ∧
    (∀ (s : DBState) (A : Int) (w : Str) (m : Option Str),
      normalizeUname w ≠ [] →
      s.users.find? (fun u => optLower u.username == some (normalizeUname w)) = none →
      (s.vouches.find? (fun v =>
        v.fromUser == A && optLower v.toUsername == some (normalizeUname w) &&
          v.isPending)).isSome →
      create_vouch s A none (some w) m = (s, .err "You already vouched for this user")) := by
  refine ⟨fun s A b tu m h => ?_, fun s A w m uB hw hl h => ?_, fun s A w m hw hl h => ?_⟩
  · unfold create_vouch create_vouch_core resolveTarget
    simp [h]
  · unfold create_vouch create_vouch_core resolveTarget
    simp [hw, hl, h]
  · unfold create_vouch create_vouch_core resolveTarget
    simp [hw, hl, h]

/-- C1 witness: in the C1 trace state (user 1 already vouched for user 2),
    a repeat vouch by id is rejected with the duplicate error. -/
theorem c1_witness :
    create_vouch c1s4 1 (some 2) none none =
      (c1s4, .err "You already vouched for this user") :=
  c1_duplicate_rejected.1 c1s4 1 2 none none (by decide)

/-- C4 (amended): when no vouch from A to A is already persisted,
    `create_vouch(A → A)` always fails with the self-vouch error and
    persists nothing — both when A is the explicit target id and when the
    target is a username whose directory lookup resolves to A (any case
    variant, `@`s stripped by normalization).  (If a vouch A → A is already
    persisted — reachable through pending-vouch resolution — the duplicate
    check fires first instead; see the counterexample.) -/
theorem c4_self_vouch_rejected :
    ∀ (s : DBState) (A : Int) (m : Option Str),
      s.vouches.find? (fun v => v.fromUser == A && v.toUser == some A) = none →
      (∀ tu : Option Str,
        create_vouch s A (some A) tu m = (s, .err "You cannot vouch for yourself")) ∧
      (∀ (w : Str) (uA : User), normalizeUname w ≠ [] →
        s.users.find? (fun u => optLower u.username == some (normalizeUname w)) = some uA →
        uA.id = A →
        create_vouch s A none (some w) m = (s, .err "You cannot vouch for yourself")) := by
  intro s A m hdup
  have hdup2 : (s.vouches.find? (fun v => v.fromUser == A && v.toUser == some A)).isSome = false := by
    rw [hdup]
    rfl
  refine ⟨fun tu => ?_, fun w uA hw hl hid => ?_⟩
  · unfold create_vouch create_vouch_core resolveTarget
    simp [hdup2]
  · unfold create_vouch create_vouch_core resolveTarget
    simp [hw, hl, hid, hdup2]

/-- C4 witness: on the C7 trace state, user 1 (username "alice") trying to
    vouch for themself by id and via their own username "@ALICE" both fail
    with the self-vouch error. -/
theorem c4_witness :
    create_vouch c7s5 1 (some 1) none none =
      (c7s5, .err "You cannot vouch for yourself") ∧
    create_vouch c7s5 1 none (some "@ALICE".toList) none =
      (c7s5, .err "You cannot vouch for yourself") :=
  ⟨(c4_self_vouch_rejected c7s5 1 none (by decide)).1 none,
   (c4_self_vouch_rejected c7s5 1 none (by decide)).2 "@ALICE".toList
     ⟨1, some "alice".toList, none, none, 1, "unverified", none⟩
     (by decide) (by decide) (by decide)⟩

/-- C5 (amended): (creation) when no user's username matches the normalized
    target and the source has no pending vouch for it yet, `create_vouch`
    persists exactly one pending vouch with null target identity and changes
    nothing else; (resolution) when a user with a matching username appears,
    every matching pending vouch becomes confirmed with that user as target,
    the user's total rises by exactly the number of matches in one batched
    update, and the rank is recomputed once against the final total (a
    single `pending_vouches_processed` event, no per-vouch rank writes, no
    rank events).  The creation half needs the two amendment hypotheses: a
    nonempty normalized username and no prior pending vouch for the same
    (source, username) pair (otherwise the call fails; see the
    counterexample). -/
theorem c5_pending_lifecycle :
    (∀ (s : DBState) (A : Int) (w : Str) (m : Option Str) (uA : User),
      findUser s.users A = some uA →
      normalizeUname w ≠ [] →
      s.users.find? (fun u => optLower u.username == some (normalizeUname w)) = none →
      s.vouches.find? (fun v => v.fromUser == A &&
        optLower v.toUsername == some (normalizeUname w) && v.isPending) = none →
      create_vouch s A none (some w) m =
        ({ s with
            vouches := s.vouches ++
              [⟨s.nextVouchId, A, none, some (normalizeUname w), m, true⟩],
            nextVouchId := s.nextVouchId + 1,
            events := s.events ++
              [⟨"pending_vouch_created", some A,
                [("to_username", .str (String.mk (normalizeUname w)))]⟩] },
         .ok ⟨s.nextVouchId, A, none, some (normalizeUname w), m, true⟩)) ∧
    (∀ (s : DBState) (uid : Int) (w : Str) (u0 : User),
      findUser s.users uid = some u0 →
      lowerStr w ≠ [] →
      s.vouches.filter (pendingMatch (lowerStr w)) ≠ [] →
      findUser (process_pending_vouches s uid w).users uid =
        some { u0 with
          totalVouches := u0.totalVouches +
            ((s.vouches.filter (pendingMatch (lowerStr w))).length : Int),
          rank := calculate_rank (u0.totalVouches +
            ((s.vouches.filter (pendingMatch (lowerStr w))).length : Int)) } ∧
      (process_pending_vouches s uid w).vouches = s.vouches.map (fun v =>
        if v.id ∈ (s.vouches.filter (pendingMatch (lowerStr w))).map (·.id)
        then { v with toUser := some uid, isPending := false } else v) ∧
      (process_pending_vouches s uid w).events = s.events ++
        [⟨"pending_vouches_processed", some uid,
          [("username", .str (String.mk w)),
           ("vouches_processed",
             .int ((s.vouches.filter (pendingMatch (lowerStr w))).length : Int)),
           ("new_rank", .str (calculate_rank (u0.totalVouches +
             ((s.vouches.filter (pendingMatch (lowerStr w))).length : Int))))]⟩] ∧
      (process_pending_vouches s uid w).rankEvents = s.rankEvents) := by
  constructor
  · intro s A w m uA hA hw hl hd
    unfold create_vouch create_vouch_core resolveTarget
    simp [hw, hl, hd, hA, logEvent]
  · intro s uid w u0 hu0 hw hp
    have hid : (u0.id == uid) = true := beq_iff_eq.2 (findUser_id hu0)
    have hinc : findUser (updUsers s.users uid (fun u =>
        { u with totalVouches := u.totalVouches +
            ((s.vouches.filter (pendingMatch (lowerStr w))).length : Int) })) uid =
        some { u0 with totalVouches := u0.totalVouches +
            ((s.vouches.filter (pendingMatch (lowerStr w))).length : Int) } := by
      rw [findUser_updUsers s.users uid uid
        (fun u => { u with totalVouches := u.totalVouches +
            ((s.vouches.filter (pendingMatch (lowerStr w))).length : Int) })
        (fun u => rfl), hu0]
      simp [findUser_id hu0]
    have hfin : findUser (updUsers (updUsers s.users uid (fun u =>
        { u with totalVouches := u.totalVouches +
            ((s.vouches.filter (pendingMatch (lowerStr w))).length : Int) })) uid
        (fun u => { u with rank := calculate_rank (u0.totalVouches +
            ((s.vouches.filter (pendingMatch (lowerStr w))).length : Int)) })) uid =
        some { u0 with
          totalVouches := u0.totalVouches +
            ((s.vouches.filter (pendingMatch (lowerStr w))).length : Int),
          rank := calculate_rank (u0.totalVouches +
            ((s.vouches.filter (pendingMatch (lowerStr w))).length : Int)) } := by
      rw [findUser_updUsers _ uid uid
        (fun u => { u with rank := calculate_rank (u0.totalVouches +
            ((s.vouches.filter (pendingMatch (lowerStr w))).length : Int)) })
        (fun u => rfl), hinc]
      simp [findUser_id hu0]
    unfold process_pending_vouches
    simp only [if_neg hw, if_neg hp, hinc]
    refine ⟨?_, ?_, ?_, ?_⟩
    · simp only [logEvent]
      exact hfin
    · simp [logEvent]
    · simp [logEvent]
    · simp [logEvent]

/-- C5 witness: in the C5 trace state, a vouch for the unseen "carol"
    persists exactly one pending vouch; resolving "Bob" (case variant of
    the stored "bob") onto user 1 batches the count and recomputes the rank
    once. -/
theorem c5_witness :
    create_vouch c5s2 1 none (some "carol".toList) none =
      ({ c5s2 with
          vouches := c5s2.vouches ++
            [⟨c5s2.nextVouchId, 1, none, some (normalizeUname "carol".toList), none, true⟩],
          nextVouchId := c5s2.nextVouchId + 1,
          events := c5s2.events ++
            [⟨"pending_vouch_created", some 1,
              [("to_username", .str (String.mk (normalizeUname "carol".toList)))]⟩] },
       .ok ⟨c5s2.nextVouchId, 1, none, some (normalizeUname "carol".toList), none, true⟩) ∧
    findUser (process_pending_vouches c5s2 1 "Bob".toList).users 1 =
      some { (⟨1, some "alice".toList, none, none, 0, "unverified", none⟩ : User) with
        totalVouches := (⟨1, some "alice".toList, none, none, 0, "unverified", none⟩ : User).totalVouches +
          ((c5s2.vouches.filter (pendingMatch (lowerStr "Bob".toList))).length : Int),
        rank := calculate_rank
          ((⟨1, some "alice".toList, none, none, 0, "unverified", none⟩ : User).totalVouches +
            ((c5s2.vouches.filter (pendingMatch (lowerStr "Bob".toList))).length : Int)) } :=
  ⟨c5_pending_lifecycle.1 c5s2 1 "carol".toList none
      ⟨1, some "alice".toList, none, none, 0, "unverified", none⟩
      (by decide) (by decide) (by decide) (by decide),
   (c5_pending_lifecycle.2 c5s2 1 "Bob".toList
      ⟨1, some "alice".toList, none, none, 0, "unverified", none⟩
      (by decide) (by decide) (by decide)).1⟩

/-! Behavior lemmas for `update_user_rank` and the confirmed vouch path. -/

theorem uur_vouches (s : DBState) (uid : Int) (r : String) :
    (update_user_rank s uid r).vouches = s.vouches := by
  unfold update_user_rank
  cases h : findUser s.users uid <;> simp [logEvent]

theorem uur_countP (s : DBState) (uid : Int) (r : String) (p : Event → Bool)
    (hp : ∀ u md, p ⟨"rank_up", u, md⟩ = false) :
    ((update_user_rank s uid r).events).countP p = s.events.countP p := by
  unfold update_user_rank
  cases h : findUser s.users uid <;> simp [logEvent, List.countP_append, hp]

/-- Shape of the confirmed path of `create_vouch`: with the source and the
    resolved target present, no duplicate, and no self-vouch, the call
    inserts the confirmed vouch, increments the target's total, updates the
    rank when it changed, emits `mutual_vouch` exactly when the reverse
    vouch already existed, and emits `vouch_created`. -/
theorem create_vouch_confirmed (s : DBState) (A b : Int) (tu : Option Str)
    (m : Option Str) (uA ub : User)
    (hA : findUser s.users A = some uA) (hb : findUser s.users b = some ub)
    (hdup : s.vouches.find? (fun v => v.fromUser == A && v.toUser == some b) = none)
    (hne : b ≠ A) :
    create_vouch_core s A (some b) tu m =
      (let v : Vouch := ⟨s.nextVouchId, A, some b,
          (match tu with | some w => if w ≠ [] then some w else none | none => none),
          m, false⟩
       let s2 : DBState := { s with
          vouches := s.vouches ++ [v],
          nextVouchId := s.nextVouchId + 1,
          users := updUsers s.users b (fun u =>
            { u with totalVouches := u.totalVouches + 1 }) }
       let newRank := calculate_rank (ub.totalVouches + 1)
       let s3 := if newRank ≠ ub.rank then update_user_rank s2 b newRank else s2
       let s4 := if (s.vouches.find? (fun v2 =>
            v2.fromUser == b && v2.toUser == some A)).isSome then
          logEvent s3 "mutual_vouch" (some A) [("other_user", .int b)]
         else s3
       (logEvent s4 "vouch_created" (some A)
          [("to_user", .int b), ("vouch_count", .int (ub.totalVouches + 1))], .ok v)) := by
  have hbA : (b == A) = false := by
    simp [beq_iff_eq]
    exact hne
  have hvrev : ∀ v : Vouch, v.fromUser = A →
      (v.fromUser == b && v.toUser == some A) = false := by
    intro v hv
    rw [hv]
    have : (A == b) = false := by
      simp [beq_iff_eq]
      exact fun h => hne h.symm
    simp [this]
  unfold create_vouch_core resolveTarget
  simp only [hdup, hA, hb, hbA, Option.isSome_none, Bool.false_eq_true, if_false,
    Bool.and_eq_false_imp]
  have hfind2 : (s.vouches ++
      [(⟨s.nextVouchId, A, some b,
        (match tu with | some w => if w ≠ [] then some w else none | none => none),
        m, false⟩ : Vouch)]).find? (fun v2 => v2.fromUser == b && v2.toUser == some A) =
      s.vouches.find? (fun v2 => v2.fromUser == b && v2.toUser == some A) :=
    find?_append_right_false _ _ _ (hvrev _ rfl)
  by_cases hrk : calculate_rank (ub.totalVouches + 1) ≠ ub.rank
  · simp only [if_pos hrk, uur_vouches, hfind2]
  · simp only [if_neg hrk, hfind2]

theorem ppv_countP (s : DBState) (uid : Int) (w : Str) (p : Event → Bool)
    (hp : ∀ u md, p ⟨"pending_vouches_processed", u, md⟩ = false) :
    (process_pending_vouches s uid w).events.countP p = s.events.countP p := by
  unfold process_pending_vouches
  by_cases hw : lowerStr w = []
  · simp [hw]
  · by_cases hmatch : s.vouches.filter (pendingMatch (lowerStr w)) = []
    · simp [hw, hmatch]
    · simp only [if_neg hw, if_neg hmatch]
      split <;> simp [logEvent, List.countP_append, hp]

/-- C7 (amended): on the confirmed path of `create_vouch`, exactly one
    `mutual_vouch` event is appended precisely when the reverse vouch
    already existed, and it is attributed to the second vouch's source
    (event user = source, metadata names the other user); pending-vouch
    resolution, by contrast, never emits a `mutual_vouch` event, so a pair
    whose second direction arises through resolution gets none (see the
    counterexample). -/
theorem c7_mutual_vouch_emission :
    (∀ (s : DBState) (A b : Int) (tu m : Option Str) (uA ub : User),
      findUser s.users A = some uA →
      findUser s.users b = some ub →
      s.vouches.find? (fun v => v.fromUser == A && v.toUser == some b) = none →
      b ≠ A →
      ((create_vouch s A (some b) tu m).1.events.countP
          (fun e => e.eventType == "mutual_vouch") =
        s.events.countP (fun e => e.eventType == "mutual_vouch") +
          (if (s.vouches.find? (fun v2 => v2.fromUser == b && v2.toUser == some A)).isSome
           then 1 else 0)) ∧
      ((s.vouches.find? (fun v2 => v2.fromUser == b && v2.toUser == some A)).isSome →
        (create_vouch s A (some b) tu m).1.events.countP
            (fun e => e.eventType == "mutual_vouch" && e.userId == some A &&
              e.metadata == [("other_user", MVal.int b)]) =
          s.events.countP
            (fun e => e.eventType == "mutual_vouch" && e.userId == some A &&
              e.metadata == [("other_user", MVal.int b)]) + 1)) ∧
    (∀ (s : DBState) (uid : Int) (w : Str),
      (process_pending_vouches s uid w).events.countP
          (fun e => e.eventType == "mutual_vouch") =
        s.events.countP (fun e => e.eventType == "mutual_vouch")) := by
  constructor
  · intro s A b tu m uA ub hA hb hdup hne
    unfold create_vouch
    rw [create_vouch_confirmed s A b (tu.map normalizeUname) m uA ub hA hb hdup hne]
    have hcnt : ∀ (st : DBState) (rr : String),
        ((update_user_rank st b rr).events).countP
            (fun e => e.eventType == "mutual_vouch") =
          st.events.countP (fun e => e.eventType == "mutual_vouch") :=
      fun st rr => uur_countP st b rr _ (fun u md => rfl)
    have hcnt2 : ∀ (st : DBState) (rr : String),
        ((update_user_rank st b rr).events).countP
            (fun e => e.eventType == "mutual_vouch" && e.userId == some A &&
              e.metadata == [("other_user", MVal.int b)]) =
          st.events.countP
            (fun e => e.eventType == "mutual_vouch" && e.userId == some A &&
              e.metadata == [("other_user", MVal.int b)]) :=
      fun st rr => uur_countP st b rr _ (fun u md => rfl)
    by_cases hrk : calculate_rank (ub.totalVouches + 1) ≠ ub.rank <;>
      by_cases hmut : (s.vouches.find? (fun v2 =>
        v2.fromUser == b && v2.toUser == some A)).isSome <;>
      constructor <;>
      simp [hrk, hmut, logEvent, List.countP_append, hcnt, hcnt2]
  · intro s uid w
    exact ppv_countP s uid w _ (fun u md => rfl)

/-- C7 witness: in the C1 trace state (user 1 already vouched for user 2),
    user 2 vouching back for user 1 emits exactly one `mutual_vouch` event,
    attributed to user 2. -/
theorem c7_witness :
    ((create_vouch c1s4 2 (some 1) none none).1.events.countP
        (fun e => e.eventType == "mutual_vouch") =
      c1s4.events.countP (fun e => e.eventType == "mutual_vouch") +
        (if (c1s4.vouches.find? (fun v2 => v2.fromUser == 1 && v2.toUser == some 2)).isSome
         then 1 else 0)) ∧
    ((create_vouch c1s4 2 (some 1) none none).1.events.countP
        (fun e => e.eventType == "mutual_vouch" && e.userId == some 2 &&
          e.metadata == [("other_user", MVal.int 1)]) =
      c1s4.events.countP
        (fun e => e.eventType == "mutual_vouch" && e.userId == some 2 &&
          e.metadata == [("other_user", MVal.int 1)]) + 1) :=
  ⟨(c7_mutual_vouch_emission.1 c1s4 2 1 none none
      ⟨2, none, none, none, 1, "unverified", none⟩
      ⟨1, some "alice".toList, none, none, 0, "unverified", none⟩
      (by decide) (by decide) (by decide) (by decide)).1,
   (c7_mutual_vouch_emission.1 c1s4 2 1 none none
      ⟨2, none, none, none, 1, "unverified", none⟩
      ⟨1, some "alice".toList, none, none, 0, "unverified", none⟩
      (by decide) (by decide) (by decide) (by decide)).2 (by decide)⟩

/-! Rank-consistency preservation (C2). -/

theorem rc_updUsers_inc_rank {users : List User} {b : Int} {ub : User}
    (hnd : (users.map (·.id)).Nodup)
    (hrc : ∀ u ∈ users, u.rank = calculate_rank u.totalVouches)
    (hub : findUser users b = some ub) (k : Int) :
    ∀ u' ∈ updUsers (updUsers users b
        (fun u => { u with totalVouches := u.totalVouches + k })) b
        (fun u => { u with rank := calculate_rank (ub.totalVouches + k) }),
      u'.rank = calculate_rank u'.totalVouches := by
  intro u' hu'
  unfold updUsers at hu'
  rw [List.map_map, List.mem_map] at hu'
  obtain ⟨u, hu, rfl⟩ := hu'
  by_cases hid : u.id = b
  · have hu_eq : u = ub := uniqueIds_eq hnd hu (findUser_mem hub) (by rw [hid, findUser_id hub])
    have hb : ub.id = b := findUser_id hub
    simp [Function.comp, hid, hu_eq, hb]
  · simp [Function.comp, hid]
    exact hrc u hu

theorem rc_updUsers_inc_norank {users : List User} {b : Int} {ub : User}
    (hnd : (users.map (·.id)).Nodup)
    (hrc : ∀ u ∈ users, u.rank = calculate_rank u.totalVouches)
    (hub : findUser users b = some ub) (k : Int)
    (heq : calculate_rank (ub.totalVouches + k) = ub.rank) :
    ∀ u' ∈ updUsers users b (fun u => { u with totalVouches := u.totalVouches + k }),
      u'.rank = calculate_rank u'.totalVouches := by
  intro u' hu'
  unfold updUsers at hu'
  rw [List.mem_map] at hu'
  obtain ⟨u, hu, rfl⟩ := hu'
  by_cases hid : u.id = b
  · have hu_eq : u = ub := uniqueIds_eq hnd hu (findUser_mem hub) (by rw [hid, findUser_id hub])
    have hb : ub.id = b := findUser_id hub
    simp [hid, hu_eq, hb, heq.symm]
  · simp [hid]
    exact hrc u hu

theorem rc_updUsers_keep (users : List User) (uid : Int) (f : User → User)
    (hf : ∀ u, (f u).totalVouches = u.totalVouches ∧ (f u).rank = u.rank)
    (hrc : ∀ u ∈ users, u.rank = calculate_rank u.totalVouches) :
    ∀ u' ∈ updUsers users uid f, u'.rank = calculate_rank u'.totalVouches := by
  intro u' hu'
  unfold updUsers at hu'
  rw [List.mem_map] at hu'
  obtain ⟨u, hu, rfl⟩ := hu'
  by_cases hid : u.id = uid
  · simp [hid, (hf u).1, (hf u).2]
    exact hrc u hu
  · simp [hid]
    exact hrc u hu

theorem create_vouch_users_shape (s : DBState) (A : Int) (tid : Option Int)
    (tu mm : Option Str) :
    (create_vouch_core s A tid tu mm).1.users = s.users ∨
    ∃ b ub, findUser s.users b = some ub ∧
      ((calculate_rank (ub.totalVouches + 1) = ub.rank ∧
        (create_vouch_core s A tid tu mm).1.users =
          updUsers s.users b (fun u => { u with totalVouches := u.totalVouches + 1 })) ∨
       (create_vouch_core s A tid tu mm).1.users =
         updUsers (updUsers s.users b
             (fun u => { u with totalVouches := u.totalVouches + 1 })) b
           (fun u => { u with rank := calculate_rank (ub.totalVouches + 1) })) := by
  cases hres : resolveTarget s tid tu with
  | some b =>
    by_cases hdup : (s.vouches.find? (fun v =>
        v.fromUser == A && v.toUser == some b)).isSome = true
    · left
      unfold create_vouch_core
      rw [hres]
      simp only [if_pos hdup]
    · by_cases hself : (b == A) = true
      · left
        unfold create_vouch_core
        rw [hres]
        simp only [if_neg hdup, if_pos hself]
      · cases hfA : findUser s.users A with
        | none =>
          left
          unfold create_vouch_core
          rw [hres]
          simp only [if_neg hdup, if_neg hself, hfA]
        | some uA =>
          cases hfb : findUser s.users b with
          | none =>
            left
            unfold create_vouch_core
            rw [hres]
            simp only [if_neg hdup, if_neg hself, hfA, hfb]
          | some ub =>
            right
            refine ⟨b, ub, hfb, ?_⟩
            unfold create_vouch_core
            rw [hres]
            simp only [if_neg hdup, if_neg hself, hfA, hfb]
            by_cases hrk : calculate_rank (ub.totalVouches + 1) ≠ ub.rank
            · right
              simp only [if_pos hrk]
              unfold update_user_rank
              have hfind : findUser (updUsers s.users b
                  (fun u => { u with totalVouches := u.totalVouches + 1 })) b =
                  some { ub with totalVouches := ub.totalVouches + 1 } := by
                rw [findUser_updUsers s.users b b
                  (fun u => { u with totalVouches := u.totalVouches + 1 }) (fun u => rfl), hfb]
                simp [findUser_id hfb]
              simp only [logEvent]
              rw [hfind]
              split <;> simp [logEvent]
            · left
              refine ⟨not_ne_iff.1 hrk, ?_⟩
              simp only [if_neg hrk]
              simp only [logEvent]
              split <;> rfl
  | none =>
    left
    unfold create_vouch_core
    rw [hres]
    cases tu with
    | none => rfl
    | some w =>
      by_cases hw : w ≠ []
      · by_cases hdup : (s.vouches.find? (fun v => v.fromUser == A &&
            optLower v.toUsername == some w && v.isPending)).isSome = true
        · simp only [if_pos hw, if_pos hdup]
        · cases hfA : findUser s.users A with
          | none => simp only [if_pos hw, if_neg hdup, hfA]
          | some uA =>
            simp only [if_pos hw, if_neg hdup, hfA, logEvent]
      · simp only [if_neg hw]

theorem ppv_users_shape (s : DBState) (uid : Int) (w : Str) :
    (process_pending_vouches s uid w).users = s.users ∨
    ∃ u0 k, findUser s.users uid = some u0 ∧
      (process_pending_vouches s uid w).users =
        updUsers (updUsers s.users uid
            (fun u => { u with totalVouches := u.totalVouches + k })) uid
          (fun u => { u with rank := calculate_rank (u0.totalVouches + k) }) := by
  by_cases hw : lowerStr w = []
  · left
    rw [ppv_empty_uname s uid w hw]
  · by_cases hm : s.vouches.filter (pendingMatch (lowerStr w)) = []
    · left
      rw [ppv_no_match s uid w hm]
    · cases hfu : findUser s.users uid with
      | none =>
        left
        unfold process_pending_vouches
        simp only [if_neg hw, if_neg hm]
        have hnone : findUser (updUsers s.users uid (fun u =>
            { u with totalVouches := u.totalVouches +
              ((s.vouches.filter (pendingMatch (lowerStr w))).length : Int) })) uid = none := by
          rw [findUser_updUsers s.users uid uid (fun u =>
            { u with totalVouches := u.totalVouches +
              ((s.vouches.filter (pendingMatch (lowerStr w))).length : Int) })
            (fun u => rfl), hfu]
          rfl
        rw [hnone]
        exact updUsers_absent s.users uid _ hfu
      | some u0 =>
        right
        refine ⟨u0, ((s.vouches.filter (pendingMatch (lowerStr w))).length : Int), rfl, ?_⟩
        unfold process_pending_vouches
        simp only [if_neg hw, if_neg hm]
        have hsome : findUser (updUsers s.users uid (fun u =>
            { u with totalVouches := u.totalVouches +
              ((s.vouches.filter (pendingMatch (lowerStr w))).length : Int) })) uid =
            some { u0 with totalVouches := u0.totalVouches +
              ((s.vouches.filter (pendingMatch (lowerStr w))).length : Int) } := by
          rw [findUser_updUsers s.users uid uid (fun u =>
            { u with totalVouches := u.totalVouches +
              ((s.vouches.filter (pendingMatch (lowerStr w))).length : Int) })
            (fun u => rfl), hfu]
          simp [findUser_id hfu]
        rw [hsome]
        simp [logEvent]

theorem create_vouch_rc (s : DBState) (A : Int) (tid : Option Int) (tu m : Option Str)
    (hrc : RankConsistent s) (hnd : UniqueIds s) :
    RankConsistent (create_vouch s A tid tu m).1 := by
  unfold create_vouch
  rcases create_vouch_users_shape s A tid (tu.map normalizeUname) m with h | ⟨b, ub, hub, hcase⟩
  · unfold RankConsistent
    rw [h]
    exact hrc
  · rcases hcase with ⟨heq, hcase⟩ | hcase
    · unfold RankConsistent
      rw [hcase]
      exact rc_updUsers_inc_norank hnd hrc hub 1 heq
    · unfold RankConsistent
      rw [hcase]
      exact rc_updUsers_inc_rank hnd hrc hub 1

theorem ppv_rc (s : DBState) (uid : Int) (w : Str)
    (hrc : RankConsistent s) (hnd : UniqueIds s) :
    RankConsistent (process_pending_vouches s uid w) := by
  rcases ppv_users_shape s uid w with h | ⟨u0, k, hu0, h⟩
  · unfold RankConsistent
    rw [h]
    exact hrc
  · unfold RankConsistent
    rw [h]
    exact rc_updUsers_inc_rank hnd hrc hu0 k

theorem uur_rc (s : DBState) (uid : Int) (u : User)
    (hrc : RankConsistent s) (hnd : UniqueIds s)
    (hu : findUser s.users uid = some u) :
    RankConsistent (update_user_rank s uid (calculate_rank u.totalVouches)) := by
  unfold update_user_rank
  rw [hu]
  intro u' hu'
  simp only [logEvent] at hu'
  unfold updUsers at hu'
  rw [List.mem_map] at hu'
  obtain ⟨x, hx, rfl⟩ := hu'
  by_cases hid : x.id = uid
  · have hx_eq : x = u := uniqueIds_eq hnd hx (findUser_mem hu) (by rw [hid, findUser_id hu])
    simp [hid, hx_eq, findUser_id hu]
  · simp [hid]
    exact hrc x hx

theorem rc_append_new {users : List User}
    (hrc : ∀ u ∈ users, u.rank = calculate_rank u.totalVouches) (nu : User)
    (hnu : nu.rank = calculate_rank nu.totalVouches) :
    ∀ u ∈ users ++ [nu], u.rank = calculate_rank u.totalVouches := by
  intro u hu
  rcases List.mem_append.1 hu with h | h
  · exact hrc u h
  · rw [List.mem_singleton] at h
    subst h
    exact hnu

theorem nodup_append_new {users : List User} {uid : Int}
    (hnd : (users.map (·.id)).Nodup) (hnot : ∀ u ∈ users, u.id ≠ uid)
    (nu : User) (hnu : nu.id = uid) :
    ((users ++ [nu]).map (·.id)).Nodup := by
  rw [List.map_append, List.nodup_append]
  refine ⟨hnd, List.nodup_singleton _, ?_⟩
  intro a ha hb
  simp only [List.map_singleton, List.mem_singleton] at hb
  subst hb
  rw [List.mem_map] at ha
  obtain ⟨x, hx, hxe⟩ := ha
  exact hnot x hx (by rw [← hnu, hxe])

theorem gocu_rc (s : DBState) (uid : Int) (un fn ln : Option Str) (rid : Option Int)
    (hrc : RankConsistent s) (hnd : UniqueIds s) :
    RankConsistent (get_or_create_user s uid un fn ln rid).1 := by
  unfold get_or_create_user
  cases hfu : findUser s.users uid with
  | some u =>
    cases un with
    | none => exact hrc
    | some w =>
      by_cases hw : w ≠ []
      · simp only [if_pos hw]
        by_cases hchange : u.username ≠ some w
        · simp only [if_pos hchange]
          apply ppv_rc
          · intro u' hu'
            have hu2 : u' ∈ updUsers s.users uid (fun v => { v with username := some w }) := hu'
            exact rc_updUsers_keep s.users uid (fun v => { v with username := some w })
              (fun v => ⟨rfl, rfl⟩) hrc u' hu2
          · unfold UniqueIds
            rw [updUsers_map_id s.users uid (fun v => { v with username := some w })
              (fun v => rfl)]
            exact hnd
        · simp only [if_neg hchange]
          intro u' hu'
          have hu2 : u' ∈ updUsers s.users uid (fun v => { v with username := some w }) := hu'
          exact rc_updUsers_keep s.users uid (fun v => { v with username := some w })
              (fun v => ⟨rfl, rfl⟩) hrc u' hu2
      · simp only [if_neg hw]
        exact hrc
  | none =>
    have hnot : ∀ u ∈ s.users, u.id ≠ uid := by
      intro u hu
      have h := List.find?_eq_none.1 hfu u hu
      simpa using h
    have hrc2 : ∀ u ∈ s.users ++ [(⟨uid, un, fn, ln, 0, "unverified", rid⟩ : User)],
        u.rank = calculate_rank u.totalVouches :=
      rc_append_new hrc _ rfl
    have hnd2 : ((s.users ++ [(⟨uid, un, fn, ln, 0, "unverified", rid⟩ : User)]).map (·.id)).Nodup :=
      nodup_append_new hnd hnot _ rfl
    cases un with
    | none =>
      simp only [logEvent]
      exact hrc2
    | some w =>
      by_cases hw : w ≠ []
      · simp only [if_pos hw, logEvent]
        exact ppv_rc _ uid w hrc2 hnd2
      · simp only [if_neg hw, logEvent]
        exact hrc2

/-- C2 (amended): the rank/total consistency invariant
    `rank == calculate_rank(total_vouches)` holds in the initial store and
    is preserved by `create_vouch`, by `resolve_pending_vouches`, by
    `get_or_create_user` (its create branch writes
    `calculate_rank(0) = "unverified"`), and by `update_user_rank` whenever
    it is invoked with the rank calculated from the user's current total —
    which is how the internal recompute path invokes it.  With an arbitrary
    rank argument, `update_user_rank` breaks the invariant (see the
    counterexample). -/
theorem c2_rank_consistency :
    RankConsistent emptyDB ∧
    ∀ s : DBState, RankConsistent s → UniqueIds s →
      (∀ (A : Int) (tid : Option Int) (tu m : Option Str),
        RankConsistent (create_vouch s A tid tu m).1) ∧
      (∀ (uid : Int) (w : Str), RankConsistent (process_pending_vouches s uid w)) ∧
      (∀ (uid : Int) (un fn ln : Option Str) (rid : Option Int),
        RankConsistent (get_or_create_user s uid un fn ln rid).1) ∧
      (∀ (uid : Int) (u : User), findUser s.users uid = some u →
        RankConsistent (update_user_rank s uid (calculate_rank u.totalVouches))) := by
  constructor
  · intro u hu
    have hnil : u ∈ ([] : List User) := hu
    cases hnil
  intro s hrc hnd
  exact ⟨fun A tid tu m => create_vouch_rc s A tid tu m hrc hnd,
         fun uid w => ppv_rc s uid w hrc hnd,
         fun uid un fn ln rid => gocu_rc s uid un fn ln rid hrc hnd,
         fun uid u hu => uur_rc s uid u hrc hnd hu⟩

/-- C2 witness: the invariant-preservation conjuncts applied to the
    concrete C1 trace state. -/
theorem c2_witness :
    RankConsistent (create_vouch c1s4 2 (some 1) none none).1 ∧
    RankConsistent (process_pending_vouches c1s4 2 "bob".toList) ∧
    RankConsistent (get_or_create_user c1s4 7 none none none none).1 ∧
    RankConsistent (update_user_rank c1s4 2
      (calculate_rank (⟨2, none, none, none, 1, "unverified", none⟩ : User).totalVouches)) :=
  ⟨((c2_rank_consistency.2 c1s4 (by show ∀ u ∈ c1s4.users, u.rank = calculate_rank u.totalVouches; decide)
      (by show (c1s4.users.map (fun x => x.id)).Nodup; decide)).1 2 (some 1) none none),
   ((c2_rank_consistency.2 c1s4 (by show ∀ u ∈ c1s4.users, u.rank = calculate_rank u.totalVouches; decide)
      (by show (c1s4.users.map (fun x => x.id)).Nodup; decide)).2.1 2 "bob".toList),
   ((c2_rank_consistency.2 c1s4 (by show ∀ u ∈ c1s4.users, u.rank = calculate_rank u.totalVouches; decide)
      (by show (c1s4.users.map (fun x => x.id)).Nodup; decide)).2.2.1 7 none none none none),
   ((c2_rank_consistency.2 c1s4 (by show ∀ u ∈ c1s4.users, u.rank = calculate_rank u.totalVouches; decide)
      (by show (c1s4.users.map (fun x => x.id)).Nodup; decide)).2.2.2 2
      ⟨2, none, none, none, 1, "unverified", none⟩ (by decide))⟩

/-! C9: the sanitizer leaves no banned word and truncates to 120. -/

theorem lowerStr_append (a b : Str) : lowerStr (a ++ b) = lowerStr a ++ lowerStr b :=
  List.map_append _ a b

theorem lowerStr_cons (c : Char) (cs : Str) :
    lowerStr (c :: cs) = Char.toLower c :: lowerStr cs := rfl

theorem lowerStr_eq_nil {w : Str} (h : lowerStr w = []) : w = [] := by
  cases w with
  | nil => rfl
  | cons c cs => simp [lowerStr] at h

theorem occCI_cons (w : Str) (c : Char) (cs : Str) :
    OccursCI w (c :: cs) ↔ lowerStr w <+: lowerStr (c :: cs) ∨ OccursCI w cs := by
  constructor
  · rintro ⟨a, b, hab⟩
    cases a with
    | nil =>
      left
      exact ⟨b, by simpa using hab.symm⟩
    | cons x a2 =>
      right
      rw [lowerStr_cons] at hab
      have htail := (List.cons_eq_cons.1 hab).2
      exact ⟨a2, b, by simpa using htail⟩
  · rintro (⟨t, ht⟩ | ⟨a, b, hab⟩)
    · exact ⟨[], t, by simpa using ht.symm⟩
    · exact ⟨Char.toLower c :: a, b, by simp [lowerStr_cons, hab]⟩

theorem occurs_ci_iff (w : Str) : ∀ s : Str, occurs_ci w s = true ↔ OccursCI w s := by
  intro s
  induction s with
  | nil =>
    unfold occurs_ci
    constructor
    · intro h
      have hw : w = [] := by simpa [List.isEmpty_iff] using h
      subst hw
      exact ⟨[], [], rfl⟩
    · rintro ⟨a, b, hab⟩
      have h0 : a ++ (lowerStr w ++ b) = ([] : Str) := by
        rw [← List.append_assoc]
        exact hab.symm
      rcases List.append_eq_nil.1 h0 with ⟨-, h1⟩
      rcases List.append_eq_nil.1 h1 with ⟨hw, -⟩
      simp [List.isEmpty_iff, lowerStr_eq_nil hw]
  | cons c cs ih =>
    unfold occurs_ci
    rw [Bool.or_eq_true, occCI_cons, List.isPrefixOf_iff_prefix, ih]

theorem occ_extend (w t x y : Str) (h : OccursCI w t) : OccursCI w (x ++ t ++ y) := by
  obtain ⟨a, b, hab⟩ := h
  refine ⟨lowerStr x ++ a, b ++ lowerStr y, ?_⟩
  rw [lowerStr_append, lowerStr_append, hab]
  simp [List.append_assoc]

theorem occ_of_take (w : Str) (n : Nat) (l : Str) (h : OccursCI w (l.take n)) :
    OccursCI w l := by
  have h2 := occ_extend w (l.take n) [] (l.drop n) h
  simpa [List.take_append_drop] using h2

theorem occ_of_drop (w : Str) (n : Nat) (l : Str) (h : OccursCI w (l.drop n)) :
    OccursCI w l := by
  have h2 := occ_extend w (l.drop n) (l.take n) [] h
  simpa [List.take_append_drop] using h2

theorem occ_of_tail (w : Str) (c : Char) (cs : Str) (h : OccursCI w cs) :
    OccursCI w (c :: cs) :=
  (occCI_cons w c cs).2 (Or.inr h)

theorem append_eq_append_split {α : Type} (x y a w b : List α)
    (h : x ++ y = a ++ w ++ b) :
    (∃ a2 b2, x = a2 ++ w ++ b2) ∨ (∃ a2 b2, y = a2 ++ w ++ b2) ∨
    ∃ w1 w2, w = w1 ++ w2 ∧ w1 ≠ [] ∧ w2 ≠ [] ∧
      (∃ a2, x = a2 ++ w1) ∧ ∃ b2, y = w2 ++ b2 := by
  rw [List.append_assoc] at h
  rcases List.append_eq_append_iff.1 h with ⟨a2, _, hy⟩ | ⟨c2, hx, hd⟩
  · right
    left
    exact ⟨a2, b, by rw [hy, List.append_assoc]⟩
  · rcases List.append_eq_append_iff.1 hd with ⟨u, hc, _⟩ | ⟨u, hw2, hy2⟩
    · left
      exact ⟨a, u, by rw [hx, hc, List.append_assoc]⟩
    · by_cases hc2 : c2 = []
      · right
        left
        subst hc2
        refine ⟨[], b, ?_⟩
        rw [hy2]
        simp at hw2
        simp [hw2]
      · by_cases hu : u = []
        · left
          subst hu
          refine ⟨a, [], ?_⟩
          rw [hx]
          simp at hw2
          simp [hw2]
        · right
          right
          exact ⟨c2, u, hw2, hc2, hu, ⟨a, hx⟩, ⟨b, hy2⟩⟩

theorem occ_append_cases (w x y : Str) (h : OccursCI w (x ++ y)) :
    OccursCI w x ∨ OccursCI w y ∨
    ∃ w1 w2, lowerStr w = w1 ++ w2 ∧ w1 ≠ [] ∧ w2 ≠ [] ∧
      (∃ a2, lowerStr x = a2 ++ w1) ∧ ∃ b2, lowerStr y = w2 ++ b2 := by
  obtain ⟨a, b, hab⟩ := h
  rw [lowerStr_append] at hab
  rcases append_eq_append_split (lowerStr x) (lowerStr y) a (lowerStr w) b hab with
    ⟨a2, b2, hx⟩ | ⟨a2, b2, hy⟩ | ⟨w1, w2, h1, h2, h3, h4, h5⟩
  · exact Or.inl ⟨a2, b2, hx⟩
  · exact Or.inr (Or.inl ⟨a2, b2, hy⟩)
  · exact Or.inr (Or.inr ⟨w1, w2, h1, h2, h3, h4, h5⟩)

theorem lower_redacted : lowerStr REDACTED = REDACTED := by decide

theorem rbracket_mem (w1 : Str) (hw1 : w1 ≠ [])
    (h : ∃ a, lowerStr REDACTED = a ++ w1) : ']' ∈ w1 := by
  obtain ⟨a, ha⟩ := h
  rw [lower_redacted] at ha
  cases w1 with
  | nil => exact absurd rfl hw1
  | cons z w2 =>
    have hlast : REDACTED.getLast? = (z :: w2).getLast? := by
      rw [ha, List.getLast?_append]
      cases hz : (z :: w2).getLast? with
      | none => simp at hz
      | some q => simp
    have hred : REDACTED.getLast? = some ']' := by decide
    rw [hred] at hlast
    have hmem : (z :: w2).getLast (by simp) ∈ (z :: w2) := List.getLast_mem _
    rw [List.getLast?_eq_getLast _ (by simp)] at hlast
    have h2 := Option.some.inj hlast
    rw [h2]
    exact hmem

theorem lbracket_mem (w2 : Str) (hw2 : w2 ≠ [])
    (h : ∃ b, lowerStr REDACTED = w2 ++ b) : '[' ∈ w2 := by
  obtain ⟨b, hb⟩ := h
  rw [lower_redacted] at hb
  cases w2 with
  | nil => exact absurd rfl hw2
  | cons z w3 =>
    have : '[' = z := by
      have := congrArg List.head? hb
      simpa [REDACTED] using this
    rw [this]
    exact List.mem_cons_self z w3

theorem toPrefixOf {l1 l2 : Str} (h : l1 <+: l2) : l1.isPrefixOf l2 = true :=
  List.isPrefixOf_iff_prefix.2 h

theorem not_occ_nil (w : Str) (hw : w ≠ []) : ¬ OccursCI w [] := by
  rintro ⟨a, b, hab⟩
  have h0 : a ++ (lowerStr w ++ b) = ([] : Str) := by
    rw [← List.append_assoc]
    exact hab.symm
  rcases List.append_eq_nil.1 h0 with ⟨-, h1⟩
  rcases List.append_eq_nil.1 h1 with ⟨hwl, -⟩
  exact hw (lowerStr_eq_nil hwl)

theorem replace_prefix_reflect (w : Str) :
    ∀ (fuel : Nat) (s p : Str), s.length ≤ fuel →
      p <+: lowerStr (replace_ci_fuel w REDACTED fuel s) → '[' ∉ p →
      p <+: lowerStr s := by
  intro fuel
  induction fuel with
  | zero =>
    intro s p hlen hp hb
    have hs : s = [] := List.length_eq_zero.1 (Nat.le_zero.1 hlen)
    subst hs
    simpa using hp
  | succ n ih =>
    intro s p hlen hp hb
    cases s with
    | nil => simpa using hp
    | cons c cs =>
      have hcl : cs.length ≤ n := by
        simpa using hlen
      by_cases hm : (lowerStr w).isPrefixOf (lowerStr (c :: cs)) = true
      · simp only [replace_ci_fuel, if_pos hm] at hp
        rw [lowerStr_append, lower_redacted] at hp
        cases p with
        | nil => exact List.nil_prefix
        | cons q p2 =>
          obtain ⟨t, ht⟩ := hp
          have hq : q = '[' := by
            have hh := congrArg List.head? ht
            simpa [REDACTED] using hh
          subst hq
          exact absurd (List.mem_cons_self _ _) hb
      · simp only [replace_ci_fuel, if_neg hm] at hp
        cases p with
        | nil => exact List.nil_prefix
        | cons q p2 =>
          obtain ⟨t, ht⟩ := hp
          rw [lowerStr_cons] at ht
          have hq : q = Char.toLower c := (List.cons_eq_cons.1 ht).1
          have ht2 : p2 ++ t = lowerStr (replace_ci_fuel w REDACTED n cs) :=
            (List.cons_eq_cons.1 ht).2
          have hb2 : '[' ∉ p2 := fun hmem => hb (List.mem_cons_of_mem q hmem)
          have hrec := ih cs p2 hcl ⟨t, ht2⟩ hb2
          obtain ⟨t2, ht3⟩ := hrec
          exact ⟨t2, by rw [lowerStr_cons, hq, ← ht3]; rfl⟩

theorem occ_redacted_append (w1 : Str) (hb2 : ']' ∉ lowerStr w1)
    (hwr : ¬ OccursCI w1 REDACTED)
    (rest : Str) (h : OccursCI w1 (REDACTED ++ rest)) : OccursCI w1 rest := by
  rcases occ_append_cases w1 REDACTED rest h with
    h1 | h2 | ⟨wa, wb, hsplit, hna, _, hsuf, -⟩
  · exact absurd h1 hwr
  · exact h2
  · exfalso
    apply hb2
    rw [hsplit]
    exact List.mem_append_left wb (rbracket_mem wa hna hsuf)

theorem occ_cons_replace (w1 w2 : Str) (c : Char) (cs : Str) (fuel : Nat)
    (hlen : cs.length ≤ fuel) (hb1 : '[' ∉ lowerStr w1)
    (hocc : OccursCI w1 (c :: replace_ci_fuel w2 REDACTED fuel cs)) :
    lowerStr w1 <+: lowerStr (c :: cs) ∨
      OccursCI w1 (replace_ci_fuel w2 REDACTED fuel cs) := by
  rcases (occCI_cons w1 c _).1 hocc with hpre | hocc2
  · left
    cases hw1l : lowerStr w1 with
    | nil =>
      exact List.nil_prefix
    | cons d w1t =>
      rw [hw1l] at hpre
      obtain ⟨t, ht⟩ := hpre
      rw [lowerStr_cons] at ht
      have hd : d = Char.toLower c := (List.cons_eq_cons.1 (by simpa using ht)).1
      have ht2 : w1t ++ t = lowerStr (replace_ci_fuel w2 REDACTED fuel cs) :=
        (List.cons_eq_cons.1 (by simpa using ht)).2
      have hbt : '[' ∉ w1t := by
        intro hmem
        apply hb1
        rw [hw1l]
        exact List.mem_cons_of_mem d hmem
      have hrec := replace_prefix_reflect w2 fuel cs w1t hlen ⟨t, ht2⟩ hbt
      obtain ⟨t2, ht3⟩ := hrec
      rw [lowerStr_cons, hd]
      exact ⟨t2, by rw [List.cons_append, ht3]⟩
  · right
    exact hocc2

theorem replace_kills_occurrence (w : Str) (hw : w ≠ [])
    (hb1 : '[' ∉ lowerStr w) (hb2 : ']' ∉ lowerStr w)
    (hwr : ¬ OccursCI w REDACTED) :
    ∀ (fuel : Nat) (s : Str), s.length ≤ fuel →
      ¬ OccursCI w (replace_ci_fuel w REDACTED fuel s) := by
  intro fuel
  induction fuel with
  | zero =>
    intro s hlen
    have hs : s = [] := List.length_eq_zero.1 (Nat.le_zero.1 hlen)
    subst hs
    exact not_occ_nil w hw
  | succ n ih =>
    intro s hlen hocc
    cases s with
    | nil => exact not_occ_nil w hw hocc
    | cons c cs =>
      have hcl : cs.length ≤ n := by simpa using hlen
      by_cases hm : (lowerStr w).isPrefixOf (lowerStr (c :: cs)) = true
      · simp only [replace_ci_fuel, if_pos hm] at hocc
        have hocc2 := occ_redacted_append w hb2 hwr _ hocc
        exact ih (cs.drop (w.length - 1))
          (by rw [List.length_drop]; omega) hocc2
      · simp only [replace_ci_fuel, if_neg hm] at hocc
        rcases occ_cons_replace w w c cs n hcl hb1 hocc with hpre | hocc2
        · exact hm (toPrefixOf hpre)
        · exact ih cs hcl hocc2

theorem replace_no_new_occurrence (w1 w2 : Str) (hw1 : w1 ≠ [])
    (hb1 : '[' ∉ lowerStr w1) (hb2 : ']' ∉ lowerStr w1)
    (hwr : ¬ OccursCI w1 REDACTED) :
    ∀ (fuel : Nat) (s : Str), s.length ≤ fuel → ¬ OccursCI w1 s →
      ¬ OccursCI w1 (replace_ci_fuel w2 REDACTED fuel s) := by
  intro fuel
  induction fuel with
  | zero =>
    intro s hlen hno
    have hs : s = [] := List.length_eq_zero.1 (Nat.le_zero.1 hlen)
    subst hs
    exact not_occ_nil w1 hw1
  | succ n ih =>
    intro s hlen hno hocc
    cases s with
    | nil => exact not_occ_nil w1 hw1 hocc
    | cons c cs =>
      have hcl : cs.length ≤ n := by simpa using hlen
      have hno_tail : ¬ OccursCI w1 cs := fun h => hno (occ_of_tail w1 c cs h)
      by_cases hm : (lowerStr w2).isPrefixOf (lowerStr (c :: cs)) = true
      · simp only [replace_ci_fuel, if_pos hm] at hocc
        have hocc2 := occ_redacted_append w1 hb2 hwr _ hocc
        have hno_drop : ¬ OccursCI w1 (cs.drop (w2.length - 1)) :=
          fun h => hno_tail (occ_of_drop w1 _ cs h)
        exact ih (cs.drop (w2.length - 1))
          (by rw [List.length_drop]; omega) hno_drop hocc2
      · simp only [replace_ci_fuel, if_neg hm] at hocc
        rcases occ_cons_replace w1 w2 c cs n hcl hb1 hocc with hpre | hocc2
        · exact hno ((occCI_cons w1 c cs).2 (Or.inl hpre))
        · exact ih cs hcl hno_tail hocc2

theorem banned_conds :
    ∀ w ∈ BANNED_WORDS, w ≠ [] ∧ '[' ∉ lowerStr w ∧ ']' ∉ lowerStr w ∧
      occurs_ci w REDACTED = false := by
  decide

theorem foldl_preserves_no_occ (w1 : Str) (hw1 : w1 ≠ [])
    (hb1 : '[' ∉ lowerStr w1) (hb2 : ']' ∉ lowerStr w1)
    (hwr : ¬ OccursCI w1 REDACTED) :
    ∀ (ws : List Str) (t : Str), ¬ OccursCI w1 t →
      ¬ OccursCI w1 (ws.foldl (fun acc x => replace_ci x REDACTED acc) t) := by
  intro ws
  induction ws with
  | nil =>
    intro t h
    simpa using h
  | cons x xs ih =>
    intro t h
    simp only [List.foldl_cons]
    exact ih _ (replace_no_new_occurrence w1 x hw1 hb1 hb2 hwr t.length t le_rfl h)

theorem foldl_no_occ :
    ∀ (ws : List Str) (t : Str),
      (∀ w ∈ ws, w ≠ [] ∧ '[' ∉ lowerStr w ∧ ']' ∉ lowerStr w ∧ ¬ OccursCI w REDACTED) →
      ∀ w ∈ ws, ¬ OccursCI w (ws.foldl (fun acc x => replace_ci x REDACTED acc) t) := by
  intro ws
  induction ws with
  | nil =>
    intro t _ w hw
    cases hw
  | cons x xs ih =>
    intro t hconds w hw
    simp only [List.foldl_cons]
    rcases List.mem_cons.1 hw with rfl | hw2
    · obtain ⟨h1, h2, h3, h4⟩ := hconds w (List.mem_cons_self w xs)
      exact foldl_preserves_no_occ w h1 h2 h3 h4 xs _
        (replace_kills_occurrence w h1 h2 h3 h4 t.length t le_rfl)
    · exact ih _ (fun w2 hw2m => hconds w2 (List.mem_cons_of_mem x hw2m)) w hw2

/-- C9: for every input text, the sanitizer's output contains no banned
    word (case-insensitively), has length at most 120, and has length
    exactly 120 whenever the redacted (pre-truncation) text was longer
    than 120 characters. -/
theorem c9_sanitize_message :
    ∀ t : Str,
      (∀ w ∈ BANNED_WORDS, occurs_ci w (sanitize_message t) = false) ∧
      (sanitize_message t).length ≤ 120 ∧
      ((redact t).length > 120 → (sanitize_message t).length = 120) := by
  intro t
  refine ⟨?_, ?_, ?_⟩
  · intro w hw
    have hcond : ∀ w2 ∈ BANNED_WORDS, w2 ≠ [] ∧ '[' ∉ lowerStr w2 ∧ ']' ∉ lowerStr w2 ∧
        ¬ OccursCI w2 REDACTED := by
      intro w2 hw2
      obtain ⟨h1, h2, h3, h4⟩ := banned_conds w2 hw2
      refine ⟨h1, h2, h3, fun hocc => ?_⟩
      rw [← occurs_ci_iff, h4] at hocc
      cases hocc
    have hno : ¬ OccursCI w (redact t) := foldl_no_occ BANNED_WORDS t hcond w hw
    by_contra hne
    have htrue : occurs_ci w (sanitize_message t) = true := by
      cases h : occurs_ci w (sanitize_message t)
      · exact absurd h hne
      · rfl
    have hocc := (occurs_ci_iff w _).1 htrue
    exact hno (occ_of_take w 120 (redact t) hocc)
  · unfold sanitize_message
    rw [List.length_take]
    exact min_le_left _ _
  · intro hlong
    unfold sanitize_message
    rw [List.length_take]
    omega

set_option maxRecDepth 100000 in
/-- C9 witness: on a 121-character input the sanitizer's output is free of
    "scam", no longer than 120 characters, and exactly 120 characters. -/
theorem c9_witness :
    occurs_ci "scam".toList (sanitize_message (List.replicate 121 'a')) = false ∧
    (sanitize_message (List.replicate 121 'a')).length ≤ 120 ∧
    (sanitize_message (List.replicate 121 'a')).length = 120 :=
  ⟨(c9_sanitize_message (List.replicate 121 'a')).1 "scam".toList (by decide),
   (c9_sanitize_message (List.replicate 121 'a')).2.1,
   (c9_sanitize_message (List.replicate 121 'a')).2.2 (by decide)⟩
